import Mathlib

/-!
# node-sdlmixer: the channel pool and the completion dispatcher

A shallow embedding of `src/node-sdlmixer.cc`.  The process-wide variables
`numChannels`, `availableChannels`, `SDLMixer::playInfoChannelList` and
`SDLMixer::playDoneEvent` become the fields of `State`; every function of the
source that reads or writes them becomes a function on `State`.

What lies outside the file (SDL, the mixer, V8) enters as data: the answers
of SDL and the mixer are the `AudioDevice` argument of `New`, and JavaScript
values are the small type `Value`.  The worker job `doing_play` only writes
`pi->wave` and calls the mixer; no function of the pool reads either, so the
waveform handle is left out of `PlayInfo` and the job appears as the `queued`
field of `Play`'s outcome.

A user callback is opaque code: `PlayDoneCallback` records its invocation as an
`Effect`.  All writes of `PlayDoneCallback` to the globals come before the
invocation, so whatever `play` calls the callback makes are `play` steps that
follow the `PlayDoneCallback` step in `Reachable`.
-/

namespace SDLMixer

/-! ## JavaScript values and C strings -/

/-- A JavaScript value, as far as the binding looks at it: `func f text` is the
function object `f` whose `ToString` is `text`. -/
inductive Value where
  | undefined
  | str (s : String)
  | num (n : Int)
  | func (f : Nat) (text : String)
  deriving DecidableEq

/-- `v->IsFunction()`. -/
def Value.isFunction : Value → Bool
  | .func _ _ => true
  | _ => false

/-- `String::Utf8Value fileName(v)`: the UTF-8 data of `ToString(v)`. -/
def utf8Value : Value → String
  | .undefined => "undefined"
  | .str s => s
  | .num n => toString n
  | .func _ text => text

/-- `args[i]`: V8 hands out `undefined` past the last argument. -/
def argAt (args : List Value) (i : Nat) : Value :=
  args[i]?.getD Value.undefined

/-- The characters of `s` before its first NUL: what C code reads when it is
handed the data of `s` as a `char *`. -/
def beforeNul (s : String) : String :=
  String.mk (s.data.takeWhile (fun c => c ≠ Char.ofNat 0))

/-- The C string left in `dst` by `strncpy(dst, src, n)` and read back by
`String::New(dst)`: the characters of `src` before its first NUL, at most `n`
of them. -/
def strncpy (src : String) (n : Nat) : String :=
  String.mk ((beforeNul src).data.take n)

/-! ## Data model -/

/-- Modelled from the spec: `struct playInfo` is declared in
`node-sdlmixer.h`, which is not among the sources.  It is the spec's
PlaybackRequest (file path, channel, completion callback, has-callback flag),
with the names of the fields the source file reads and writes; the waveform
handle `wave` is left out. -/
structure PlayInfo where
  name : String
  channel : Int
  doCallback : Bool
  cb : Value
  deriving DecidableEq

/-- Modelled from the spec: `SDLMixer::AsyncPlayDone`, declared in
`node-sdlmixer.h`, is the spec's singleton dispatcher; the globals only record
whether `playDoneEvent` points to one. -/
inductive AsyncPlayDone where
  | mk
  deriving DecidableEq

/-- The process-wide variables of the file. -/
structure State where
  numChannels : Nat
  availableChannels : List Int
  playInfoChannelList : List (Option PlayInfo)
  playDoneEvent : Option AsyncPlayDone
  deriving DecidableEq

/-- The values of the static initialisers (lines 6, 8, 92, 93). -/
def initialState : State :=
  { numChannels := 0, availableChannels := [], playInfoChannelList := [],
    playDoneEvent := none }

/-- `v[i]` on a `vector<playInfo *>`; `none` is the NULL pointer.  An index
outside the vector is undefined behaviour in the source and reads NULL here. -/
def vectorGet (v : List (Option PlayInfo)) (i : Int) : Option PlayInfo :=
  if 0 ≤ i then v[i.toNat]?.getD none else none

/-- `v[i] = x`; an index outside the vector leaves it as it is. -/
def vectorSet (v : List (Option PlayInfo)) (i : Int) (x : Option PlayInfo) :
    List (Option PlayInfo) :=
  if 0 ≤ i then v.set i.toNat x else v

/-- `v.resize(n)`: cut to `n` entries, or fill up with NULL. -/
def vectorResize (v : List (Option PlayInfo)) (n : Nat) : List (Option PlayInfo) :=
  v.take n ++ List.replicate (n - v.length) none

/-- How a V8 entry point ends: `ThrowException(Exception::Error(msg))` or a
returned value. -/
inductive Outcome where
  | threw (msg : String)
  | returned (v : Value)
  deriving DecidableEq

/-- What the runtime can observe of one `PlayDoneCallback`, in program order. -/
inductive Effect where
  /-- line 180, `releaseAudioChannel(pi->channel)` -/
  | releaseChannel (channel : Int)
  /-- lines 186-187, `delete playDoneEvent` -/
  | deletePlayDoneEvent
  /-- line 196, `pi->cb->Call(global, 2, argv)` -/
  | callback (cb : Value) (argv : List Value)
  /-- line 202, `Mix_FreeChunk(pi->wave)` -/
  | freeChunk
  /-- lines 205-206, `pi->cb.Dispose(); free(pi)` -/
  | freePlayInfo
  deriving DecidableEq

/-! ## The channel pool -/

/-- Lines 15-23: the result and the free list after the call. -/
def claimAudioChannel (availableChannels : List Int) : Int × List Int :=
  if availableChannels.length > 1 then
    (availableChannels.headD (-1), availableChannels.tail)
  else
    (-1, availableChannels)

/-- Lines 29-32. -/
def releaseAudioChannel (availableChannels : List Int) (channel : Int) : List Int :=
  availableChannels ++ [channel]

/-! ## `SDLMixer::Play` -/

def usage : String := "usage: play(fileName, <callbackFunc>)"

def noMoreChannels : String := "Out of available channels"

/-- What one call of `Play` leaves behind. -/
structure PlayResult where
  outcome : Outcome
  state : State
  /-- the request handed to `BEGIN_ASYNC`, if one was -/
  queued : Option PlayInfo
  deriving DecidableEq

/-- Lines 67-77: the request record built for an accepted call.  The bound
`fileName.length() + 1` of the `strncpy` is longer than the data, so only a
NUL in the data cuts the name. -/
def newPlayInfo (args : List Value) (channel : Int) : PlayInfo :=
  let fileName := utf8Value (argAt args 0)
  { cb := argAt args 1
    doCallback := (argAt args 1).isFunction
    channel := channel
    name := strncpy fileName (fileName.length + 1) }

/-- Lines 50-89. -/
def Play (s : State) (args : List Value) : PlayResult :=
  if args.length < 1 then
    { outcome := .threw usage, state := s, queued := none }
  else
    let claimed := claimAudioChannel s.availableChannels
    let channel := claimed.1
    let s1 : State := { s with availableChannels := claimed.2 }
    if channel < 0 then
      { outcome := .threw noMoreChannels, state := s1, queued := none }
    else
      let pi := newPlayInfo args channel
      let s2 : State :=
        { s1 with playInfoChannelList := vectorSet s1.playInfoChannelList channel (some pi) }
      let s3 : State :=
        if s2.playDoneEvent = none then { s2 with playDoneEvent := some .mk } else s2
      { outcome := .returned (argAt args 0), state := s3, queued := some pi }

/-! ## `SDLMixer::New` -/

/-- Lines 142-145: the body of the loop for one `x`. -/
def newLoopBody (s : State) (x : Nat) : State :=
  { s with
    availableChannels := s.availableChannels ++ [(x : Int)]
    playInfoChannelList := vectorSet s.playInfoChannelList (x : Int) none }

/-- What SDL and the mixer answer during one `New`: the return values of
`SDL_Init`, `Mix_OpenAudio` and `Mix_AllocateChannels(32)`, the text of
`SDL_GetError()`, and the three outputs of `Mix_QuerySpec`. -/
structure AudioDevice where
  sdlInit : Int
  mixOpenAudio : Int
  allocateChannels : Nat
  sdlError : String
  audioRate : Int
  audioFormat : Nat
  audioChannels : Int
  deriving DecidableEq

/-- The properties `New` sets on the object it returns (lines 149-157). -/
structure MixerObject where
  audioRate : Int
  audioFormat : Nat
  audioChannels : String
  numberOfAudioChannels : Nat
  deriving DecidableEq

/-- How `New` ends: `ThrowException(Exception::TypeError(msg))` or the object. -/
inductive NewOutcome where
  | threw (msg : String)
  | returned (obj : MixerObject)
  deriving DecidableEq

/-- Lines 114-163. -/
def New (s : State) (dev : AudioDevice) : NewOutcome × State :=
  if dev.sdlInit < 0 then (.threw dev.sdlError, s)
  else if dev.mixOpenAudio < 0 then (.threw dev.sdlError, s)
  else
    let s1 : State := { s with numChannels := dev.allocateChannels }
    let s2 : State :=
      { s1 with playInfoChannelList := vectorResize s1.playInfoChannelList s1.numChannels }
    let s3 : State := (List.range s2.numChannels).foldl newLoopBody s2
    (.returned
        { audioRate := dev.audioRate
          audioFormat := dev.audioFormat % 256
          audioChannels :=
            if dev.audioChannels > 2 then "surround"
            else if dev.audioChannels > 1 then "stereo" else "mono"
          numberOfAudioChannels := s3.numChannels },
      s3)

/-- An audio device that opens and hands out `n` mixer channels. -/
def workingDevice (n : Nat) : AudioDevice :=
  { sdlInit := 0, mixOpenAudio := 0, allocateChannels := n, sdlError := "",
    audioRate := 22050, audioFormat := 32784, audioChannels := 2 }

/-- The state after the one successful `new SDLMixer()` of a process that got
`n` channels. -/
def constructed (n : Nat) : State :=
  (New initialState (workingDevice n)).2

/-! ## Completion -/

/-- Lines 165-173: the request handed to `playDoneEvent->send`, if any. -/
def ChannelFinished (s : State) (channel : Int) : Option PlayInfo :=
  match vectorGet s.playInfoChannelList channel with
  | some item => if s.playDoneEvent ≠ none then some item else none
  | none => none

/-- Lines 175-207: the state after the call and what it did, in order. -/
def PlayDoneCallback (s : State) (pi : PlayInfo) : State × List Effect :=
  let s1 : State :=
    { s with playInfoChannelList := vectorSet s.playInfoChannelList pi.channel none }
  let s2 : State :=
    { s1 with availableChannels := releaseAudioChannel s1.availableChannels pi.channel }
  let idle : Bool := s2.availableChannels.length == s2.numChannels
  let s3 : State := if idle then { s2 with playDoneEvent := none } else s2
  let argv : List Value := [.str pi.name, .num pi.channel]
  (s3,
    [.releaseChannel pi.channel]
      ++ (if idle then [.deletePlayDoneEvent] else [])
      ++ (if pi.doCallback then [.callback pi.cb argv] else [])
      ++ [.freeChunk, .freePlayInfo])

/-! ## The process as a transition system -/

/-- Modelled from the spec: `SDLMixer::AsyncPlayDone` is declared in
`node-sdlmixer.h`, which is not among the sources.  By the spec the dispatcher
"marshals the signal to the request-issuing thread": `send(item)`, called on
the mixer's thread, hands the request over, and `PlayDoneCallback(sm, item)`
runs for it later on the thread of `play`.  `sent` holds the requests handed
over whose `PlayDoneCallback` has not run yet; `state` is the globals. -/
structure World where
  state : State
  sent : List PlayInfo

/-- Number of channels with a registered request. -/
def busyCount (v : List (Option PlayInfo)) : Nat :=
  v.countP Option.isSome

/-- The states of a process after one successful construct that got `n`
channels: any `play` calls, the mixer signalling `ChannelFinished` for one of
its channels while no earlier signal for that channel is still waiting, and
the dispatcher running `PlayDoneCallback` on a request it was sent. -/
inductive Reachable (n : Nat) : World → Prop where
  | construct : Reachable n ⟨constructed n, []⟩
  | play (w : World) (args : List Value) :
      Reachable n w → Reachable n ⟨(Play w.state args).state, w.sent⟩
  | channelFinished (w : World) (c : Int) :
      Reachable n w → 0 ≤ c → c < n → (∀ pi ∈ w.sent, pi.channel ≠ c) →
      Reachable n ⟨w.state, w.sent ++ (ChannelFinished w.state c).toList⟩
  | playDone (w : World) (pi : PlayInfo) :
      Reachable n w → pi ∈ w.sent →
      Reachable n ⟨(PlayDoneCallback w.state pi).1, w.sent.erase pi⟩

/-- What holds of every reachable world. -/
structure Inv (n : Nat) (w : World) : Prop where
  num : w.state.numChannels = n
  len : w.state.playInfoChannelList.length = n
  nodup : w.state.availableChannels.Nodup
  range : ∀ c ∈ w.state.availableChannels, 0 ≤ c ∧ c < n
  part : ∀ c : Int, 0 ≤ c → c < n →
    (c ∈ w.state.availableChannels ↔ vectorGet w.state.playInfoChannelList c = none)
  count : busyCount w.state.playInfoChannelList + w.state.availableChannels.length = n
  chan : ∀ c pi, vectorGet w.state.playInfoChannelList c = some pi → pi.channel = c
  sent : ∀ pi ∈ w.sent, vectorGet w.state.playInfoChannelList pi.channel = some pi
  sentNodup : (w.sent.map PlayInfo.channel).Nodup
  disp : w.state.playDoneEvent ≠ none ↔ 0 < busyCount w.state.playInfoChannelList

/-! ## Auxiliary notions used in the statements -/

/-- The free list after `k` consecutive calls of `claimAudioChannel`, with no
release in between. -/
def afterClaims : Nat → List Int → List Int
  | 0, l => l
  | k + 1, l => afterClaims k (claimAudioChannel l).2

/-- The result of the `k`-th of consecutive calls of `claimAudioChannel`
(`k = 1` is the first call). -/
def kthClaim (k : Nat) (l : List Int) : Int :=
  (claimAudioChannel (afterClaims (k - 1) l)).1

/-- The request that `play("a.wav", f)` registers on channel 0. -/
def exampleRequest : PlayInfo :=
  { name := "a.wav", channel := 0, doCallback := true, cb := .func 7 "f" }

/-- A process that got two channels and has accepted `play("a.wav", f)`. -/
def exampleWorld : World :=
  ⟨(Play (constructed 2) [.str "a.wav", .func 7 "f"]).state, []⟩

/-! ## Lemmas on the request table -/

theorem vectorSet_length (v : List (Option PlayInfo)) (i : Int) (x : Option PlayInfo) :
    (vectorSet v i x).length = v.length := by
  unfold vectorSet
  split <;> simp

theorem vectorGet_eq_none_of_out (v : List (Option PlayInfo)) (i : Int)
    (h : i < 0 ∨ (v.length : Int) ≤ i) : vectorGet v i = none := by
  unfold vectorGet
  split
  · have : v.length ≤ i.toNat := by omega
    simp [List.getElem?_eq_none this]
  · rfl

theorem vectorGet_in_range (v : List (Option PlayInfo)) (i : Int) (x : PlayInfo)
    (h : vectorGet v i = some x) : 0 ≤ i ∧ i < v.length := by
  by_contra hc
  have : i < 0 ∨ (v.length : Int) ≤ i := by omega
  rw [vectorGet_eq_none_of_out v i this] at h
  cases h

theorem vectorGet_vectorSet_same (v : List (Option PlayInfo)) (i : Int) (x : Option PlayInfo)
    (h0 : 0 ≤ i) (h1 : i < v.length) : vectorGet (vectorSet v i x) i = x := by
  have hlt : i.toNat < v.length := by omega
  simp [vectorGet, vectorSet, h0, List.getElem?_set, hlt]

theorem vectorGet_vectorSet_ne (v : List (Option PlayInfo)) (i j : Int) (x : Option PlayInfo)
    (h : i ≠ j) : vectorGet (vectorSet v i x) j = vectorGet v j := by
  unfold vectorGet vectorSet
  by_cases hj : 0 ≤ j
  · by_cases hi : 0 ≤ i
    · have hne : i.toNat ≠ j.toNat := by omega
      simp [hi, hj, List.getElem?_set, hne]
    · simp [hi, hj]
  · simp [hj]

theorem countP_set_add (p : Option PlayInfo → Bool) (v : List (Option PlayInfo)) (k : Nat)
    (x : Option PlayInfo) (h : k < v.length) :
    (v.set k x).countP p + (if p (v[k]?.getD none) then 1 else 0)
      = v.countP p + (if p x then 1 else 0) := by
  induction v generalizing k with
  | nil => simp at h
  | cons a t ih =>
    cases k with
    | zero =>
      simp only [List.set_cons_zero, List.countP_cons, List.getElem?_cons_zero, Option.getD_some]
      omega
    | succ k =>
      have hk : k < t.length := by simpa using h
      have := ih k hk
      simp only [List.set_cons_succ, List.countP_cons, List.getElem?_cons_succ]
      omega

theorem busyCount_vectorSet (v : List (Option PlayInfo)) (i : Int) (x : Option PlayInfo)
    (h0 : 0 ≤ i) (h1 : i < v.length) :
    busyCount (vectorSet v i x) + (if (vectorGet v i).isSome then 1 else 0)
      = busyCount v + (if x.isSome then 1 else 0) := by
  have hlt : i.toNat < v.length := by omega
  have := countP_set_add Option.isSome v i.toNat x hlt
  simpa [busyCount, vectorSet, vectorGet, h0] using this

theorem vectorGet_vectorSet_none (v : List (Option PlayInfo)) (i : Int) :
    vectorGet (vectorSet v i none) i = none := by
  by_cases h : 0 ≤ i ∧ i < v.length
  · exact vectorGet_vectorSet_same v i none h.1 h.2
  · apply vectorGet_eq_none_of_out
    rw [vectorSet_length]
    omega

theorem vectorResize_length (v : List (Option PlayInfo)) (n : Nat) :
    (vectorResize v n).length = n := by
  simp [vectorResize]
  omega

theorem eq_replicate_of_vectorGet (v : List (Option PlayInfo))
    (h : ∀ c : Int, vectorGet v c = none) : v = List.replicate v.length none := by
  rw [List.eq_replicate_iff]
  refine ⟨rfl, ?_⟩
  intro b hb
  obtain ⟨k, hk, rfl⟩ := List.getElem_of_mem hb
  have := h (k : Int)
  simpa [vectorGet, List.getElem?_eq_getElem hk] using this

/-! ## Lemmas on `New` -/

theorem foldl_newLoopBody_succ (n : Nat) (s : State) :
    (List.range (n + 1)).foldl newLoopBody s
      = newLoopBody ((List.range n).foldl newLoopBody s) n := by
  simp [List.range_succ, List.foldl_append]

theorem foldl_newLoopBody_avail (n : Nat) (s : State) :
    ((List.range n).foldl newLoopBody s).availableChannels
      = s.availableChannels ++ (List.range n).map (fun (x : Nat) => (x : Int)) := by
  induction n with
  | zero => simp
  | succ n ih =>
    rw [foldl_newLoopBody_succ]
    simp [newLoopBody, ih, List.range_succ]

theorem foldl_newLoopBody_num (n : Nat) (s : State) :
    ((List.range n).foldl newLoopBody s).numChannels = s.numChannels := by
  induction n with
  | zero => simp
  | succ n ih => rw [foldl_newLoopBody_succ]; simpa [newLoopBody] using ih

theorem foldl_newLoopBody_event (n : Nat) (s : State) :
    ((List.range n).foldl newLoopBody s).playDoneEvent = s.playDoneEvent := by
  induction n with
  | zero => simp
  | succ n ih => rw [foldl_newLoopBody_succ]; simpa [newLoopBody] using ih

theorem foldl_newLoopBody_length (n : Nat) (s : State) :
    ((List.range n).foldl newLoopBody s).playInfoChannelList.length
      = s.playInfoChannelList.length := by
  induction n with
  | zero => simp
  | succ n ih =>
    rw [foldl_newLoopBody_succ]
    simpa [newLoopBody, vectorSet_length] using ih

theorem foldl_newLoopBody_get (n : Nat) (s : State) (c : Int) :
    vectorGet ((List.range n).foldl newLoopBody s).playInfoChannelList c
      = if c < n then none else vectorGet s.playInfoChannelList c := by
  induction n with
  | zero =>
    by_cases hc : c < 0
    · simp [hc, vectorGet_eq_none_of_out _ c (Or.inl hc)]
    · simp [hc]
  | succ n ih =>
    rw [foldl_newLoopBody_succ]
    simp only [newLoopBody]
    by_cases hcn : c = (n : Int)
    · subst hcn
      rw [vectorGet_vectorSet_none]
      simp
    · rw [vectorGet_vectorSet_ne _ _ _ _ (Ne.symm hcn), ih]
      by_cases h1 : c < (n : Int)
      · have h2 : c < (n : Int) + 1 := by omega
        simp [h1, h2]
      · have h2 : ¬ c < (n : Int) + 1 := by omega
        simp [h1, h2]

/-- What a successful `New` does to the globals, whatever they were before. -/
theorem New_success (s : State) (dev : AudioDevice)
    (ha : 0 ≤ dev.sdlInit) (hb : 0 ≤ dev.mixOpenAudio) :
    (∃ obj, (New s dev).1 = .returned obj ∧
      obj.numberOfAudioChannels = dev.allocateChannels) ∧
    (New s dev).2.numChannels = dev.allocateChannels ∧
    (New s dev).2.availableChannels
      = s.availableChannels ++ (List.range dev.allocateChannels).map (fun (x : Nat) => (x : Int)) ∧
    (New s dev).2.playInfoChannelList = List.replicate dev.allocateChannels none ∧
    (New s dev).2.playDoneEvent = s.playDoneEvent := by
  have ha2 : ¬ dev.sdlInit < 0 := by omega
  have hb2 : ¬ dev.mixOpenAudio < 0 := by omega
  simp only [New, ha2, hb2, if_false]
  refine ⟨⟨_, rfl, ?_⟩, ?_, ?_, ?_, ?_⟩
  · simp only [foldl_newLoopBody_num]
  · rw [foldl_newLoopBody_num]
  · rw [foldl_newLoopBody_avail]
  · have hlen := foldl_newLoopBody_length dev.allocateChannels
      { s with numChannels := dev.allocateChannels,
               playInfoChannelList := vectorResize s.playInfoChannelList dev.allocateChannels }
    simp only [vectorResize_length] at hlen
    have hall : ∀ c : Int, vectorGet ((List.range dev.allocateChannels).foldl newLoopBody
        { s with numChannels := dev.allocateChannels,
                 playInfoChannelList :=
                   vectorResize s.playInfoChannelList dev.allocateChannels }).playInfoChannelList c
          = none := by
      intro c
      rw [foldl_newLoopBody_get]
      split
      · rfl
      · apply vectorGet_eq_none_of_out
        simp only [vectorResize_length]
        omega
    have := eq_replicate_of_vectorGet _ hall
    rw [hlen] at this
    exact this
  · rw [foldl_newLoopBody_event]

theorem constructed_spec (n : Nat) :
    constructed n =
      { numChannels := n
        availableChannels := (List.range n).map (fun (x : Nat) => (x : Int))
        playInfoChannelList := List.replicate n none
        playDoneEvent := none } := by
  obtain ⟨_, h1, h2, h3, h4⟩ :=
    New_success initialState (workingDevice n) (le_refl 0) (le_refl 0)
  unfold constructed
  generalize (New initialState (workingDevice n)).2 = st at h1 h2 h3 h4
  cases st
  simp only [initialState, List.nil_append, workingDevice] at h1 h2 h3 h4
  simp [h1, h2, h3, h4]

/-! ## Lemmas on `claimAudioChannel` and `Play` -/

theorem claimAudioChannel_short (l : List Int) (h : l.length ≤ 1) :
    claimAudioChannel l = (-1, l) := by
  have : ¬ l.length > 1 := by omega
  simp [claimAudioChannel, this]

theorem claimAudioChannel_cons (a b : Int) (rest : List Int) :
    claimAudioChannel (a :: b :: rest) = (a, b :: rest) := by
  simp [claimAudioChannel]

/-- The four ways through `Play`. -/
theorem Play_cases (s : State) (args : List Value) :
    (args = [] ∧ Play s args = { outcome := .threw usage, state := s, queued := none }) ∨
    (args ≠ [] ∧ s.availableChannels.length ≤ 1 ∧
      Play s args = { outcome := .threw noMoreChannels, state := s, queued := none }) ∨
    (args ≠ [] ∧ ∃ a b rest, s.availableChannels = a :: b :: rest ∧ a < 0 ∧
      Play s args = { outcome := .threw noMoreChannels
                      state := { s with availableChannels := b :: rest }
                      queued := none }) ∨
    (args ≠ [] ∧ ∃ a b rest, s.availableChannels = a :: b :: rest ∧ 0 ≤ a ∧
      Play s args =
        { outcome := .returned (argAt args 0)
          state :=
            { numChannels := s.numChannels
              availableChannels := b :: rest
              playInfoChannelList :=
                vectorSet s.playInfoChannelList a (some (newPlayInfo args a))
              playDoneEvent := some .mk }
          queued := some (newPlayInfo args a) }) := by
  cases args with
  | nil => left; simp [Play]
  | cons v vs =>
    right
    have hlen : ¬ (v :: vs).length < 1 := by simp
    rcases hl : s.availableChannels with _ | ⟨a, _ | ⟨b, rest⟩⟩
    · left
      refine ⟨by simp, by simp, ?_⟩
      cases s
      simp only at hl
      subst hl
      simp [Play, claimAudioChannel]
    · left
      refine ⟨by simp, by simp, ?_⟩
      cases s
      simp only at hl
      subst hl
      simp [Play, claimAudioChannel]
    · right
      by_cases ha : a < 0
      · left
        refine ⟨by simp, a, b, rest, rfl, ha, ?_⟩
        simp [Play, hl, claimAudioChannel, ha]
      · right
        refine ⟨by simp, a, b, rest, rfl, by omega, ?_⟩
        cases hev : s.playDoneEvent with
        | none => simp [Play, hl, claimAudioChannel, ha, hev]
        | some d => cases d; simp [Play, hl, claimAudioChannel, ha, hev]

/-! ## The invariant -/

theorem Inv_construct (n : Nat) : Inv n ⟨constructed n, []⟩ := by
  rw [constructed_spec]
  have hget : ∀ c : Int, vectorGet (List.replicate n (none : Option PlayInfo)) c = none := by
    intro c
    unfold vectorGet
    split
    · cases h : (List.replicate n (none : Option PlayInfo))[c.toNat]? with
      | none => rfl
      | some x =>
        have hx := List.getElem?_mem h
        rw [List.mem_replicate] at hx
        simp [hx.2]
    · rfl
  have hbusy : busyCount (List.replicate n (none : Option PlayInfo)) = 0 := by
    simp [busyCount, List.countP_eq_zero]
  constructor
  · rfl
  · simp
  · exact (List.nodup_range n).map (fun a b h => by simpa using h)
  · intro c hc
    simp only [List.mem_map, List.mem_range] at hc
    obtain ⟨k, hk, rfl⟩ := hc
    omega
  · intro c h0 h1
    simp only [hget, iff_true, List.mem_map, List.mem_range]
    exact ⟨c.toNat, by omega, by omega⟩
  · simp [hbusy]
  · intro c pi h
    rw [hget] at h
    cases h
  · intro pi h
    cases h
  · simp
  · simp [hbusy]

theorem Inv_play (n : Nat) (w : World) (args : List Value) (h : Inv n w) :
    Inv n ⟨(Play w.state args).state, w.sent⟩ := by
  obtain ⟨st, sent⟩ := w
  rcases Play_cases st args with ⟨_, hp⟩ | ⟨_, _, hp⟩ | ⟨_, a, b, rest, hl, ha, _⟩ |
    ⟨_, a, b, rest, hl, ha, hp⟩
  · rw [hp]; exact h
  · rw [hp]; exact h
  · have := (h.range a (by simp [hl])).1
    omega
  · rw [hp]
    have hmem : a ∈ st.availableChannels := by simp [hl]
    have hr := h.range a hmem
    have hnd : (a :: b :: rest).Nodup := hl ▸ h.nodup
    have hfree : vectorGet st.playInfoChannelList a = none := (h.part a hr.1 hr.2).mp hmem
    have hlt : a < (st.playInfoChannelList.length : Int) := by rw [h.len]; exact hr.2
    have hcnt := busyCount_vectorSet st.playInfoChannelList a (some (newPlayInfo args a)) hr.1 hlt
    rw [hfree] at hcnt
    simp only [Option.isSome_none, Option.isSome_some, if_true] at hcnt
    have hcount := h.count
    rw [hl] at hcount
    simp only [List.length_cons] at hcount
    constructor
    · exact h.num
    · simp only [vectorSet_length]; exact h.len
    · exact (List.nodup_cons.mp hnd).2
    · intro c hc
      exact h.range c (by rw [hl]; exact List.mem_cons_of_mem a hc)
    · intro c h0 h1
      by_cases hca : c = a
      · subst hca
        simp only [vectorGet_vectorSet_same _ _ _ hr.1 hlt]
        simp only [reduceCtorEq, iff_false]
        exact (List.nodup_cons.mp hnd).1
      · simp only [vectorGet_vectorSet_ne _ _ _ _ (Ne.symm hca)]
        rw [← h.part c h0 h1, hl]
        simp [hca]
    · simp only [List.length_cons]
      simp only [Bool.false_eq_true, if_false] at hcnt
      omega
    · intro c pi hpi
      by_cases hca : c = a
      · subst hca
        simp only [vectorGet_vectorSet_same _ _ _ hr.1 hlt] at hpi
        cases hpi
        rfl
      · simp only [vectorGet_vectorSet_ne _ _ _ _ (Ne.symm hca)] at hpi
        exact h.chan c pi hpi
    · intro pi hpi
      have hs := h.sent pi hpi
      have hne : a ≠ pi.channel := by
        intro heq
        rw [← heq, hfree] at hs
        cases hs
      simp only [vectorGet_vectorSet_ne _ _ _ _ hne]
      exact hs
    · exact h.sentNodup
    · simp only [Bool.false_eq_true, if_false] at hcnt
      simp only [ne_eq, reduceCtorEq, not_false_eq_true, true_iff]
      omega

theorem Inv_channelFinished (n : Nat) (w : World) (c : Int) (h : Inv n w)
    (hfresh : ∀ pi ∈ w.sent, pi.channel ≠ c) :
    Inv n ⟨w.state, w.sent ++ (ChannelFinished w.state c).toList⟩ := by
  obtain ⟨st, sent⟩ := w
  cases hcf : ChannelFinished st c with
  | none => simpa using h
  | some item =>
    have hget : vectorGet st.playInfoChannelList c = some item := by
      unfold ChannelFinished at hcf
      split at hcf
      · split at hcf
        · cases hcf; assumption
        · cases hcf
      · cases hcf
    have hch := h.chan c item hget
    refine { h with sent := ?_, sentNodup := ?_ }
    · intro pi hpi
      simp only [Option.toList_some, List.mem_append, List.mem_singleton] at hpi
      rcases hpi with hpi | rfl
      · exact h.sent pi hpi
      · rw [hch]; exact hget
    · simp only [Option.toList_some, List.map_append, List.map_cons, List.map_nil]
      rw [List.nodup_append]
      refine ⟨h.sentNodup, by simp, ?_⟩
      intro x hx hy
      simp only [List.mem_singleton] at hy
      simp only [List.mem_map] at hx
      obtain ⟨pi, hpi, rfl⟩ := hx
      exact hfresh pi hpi (by rw [hy, hch])

/-- The globals after `PlayDoneCallback`, field by field. -/
theorem PlayDoneCallback_state (s : State) (pi : PlayInfo) :
    (PlayDoneCallback s pi).1.numChannels = s.numChannels ∧
    (PlayDoneCallback s pi).1.availableChannels = s.availableChannels ++ [pi.channel] ∧
    (PlayDoneCallback s pi).1.playInfoChannelList
      = vectorSet s.playInfoChannelList pi.channel none ∧
    (PlayDoneCallback s pi).1.playDoneEvent
      = if s.availableChannels.length + 1 = s.numChannels then none else s.playDoneEvent := by
  unfold PlayDoneCallback releaseAudioChannel
  by_cases h : s.availableChannels.length + 1 = s.numChannels <;> simp [h]

theorem Inv_playDone (n : Nat) (w : World) (pi : PlayInfo) (h : Inv n w) (hpi : pi ∈ w.sent) :
    Inv n ⟨(PlayDoneCallback w.state pi).1, w.sent.erase pi⟩ := by
  obtain ⟨st, sent⟩ := w
  obtain ⟨e1, e2, e3, e4⟩ := PlayDoneCallback_state st pi
  have hget : vectorGet st.playInfoChannelList pi.channel = some pi := h.sent pi hpi
  have hr := vectorGet_in_range _ _ _ hget
  have hrn : pi.channel < (n : Int) := by have := h.len; simp only at this; omega
  have hnot : pi.channel ∉ st.availableChannels := by
    intro hm
    have := (h.part pi.channel hr.1 hrn).mp hm
    rw [hget] at this
    cases this
  have hcnt := busyCount_vectorSet st.playInfoChannelList pi.channel none hr.1 hr.2
  rw [hget] at hcnt
  simp only [Option.isSome_none, Option.isSome_some, if_true, Bool.false_eq_true,
    if_false] at hcnt
  have hcount := h.count
  have hsnd : sent.Nodup := List.Nodup.of_map _ h.sentNodup
  constructor
  · simp only [e1]; exact h.num
  · simp only [e3, vectorSet_length]; exact h.len
  · simp only [e2]
    rw [List.nodup_append]
    refine ⟨h.nodup, by simp, ?_⟩
    intro x hx hy
    simp only [List.mem_singleton] at hy
    subst hy
    exact hnot hx
  · simp only [e2]
    intro c hc
    simp only [List.mem_append, List.mem_singleton] at hc
    rcases hc with hc | rfl
    · exact h.range c hc
    · exact ⟨hr.1, hrn⟩
  · simp only [e2, e3]
    intro c h0 h1
    by_cases hc : c = pi.channel
    · subst hc
      simp [vectorGet_vectorSet_none]
    · simp only [vectorGet_vectorSet_ne _ _ _ _ (Ne.symm hc)]
      rw [← h.part c h0 h1]
      simp [hc]
  · simp only [e2, e3, List.length_append, List.length_singleton]
    simp only at hcount
    omega
  · simp only [e3]
    intro c q hq
    by_cases hc : c = pi.channel
    · subst hc
      rw [vectorGet_vectorSet_none] at hq
      cases hq
    · rw [vectorGet_vectorSet_ne _ _ _ _ (Ne.symm hc)] at hq
      exact h.chan c q hq
  · simp only [e3]
    intro q hq
    have hqs : q ∈ sent := List.mem_of_mem_erase hq
    have hqget := h.sent q hqs
    have hne : pi.channel ≠ q.channel := by
      intro heq
      simp only at hqget hget
      rw [← heq, hget] at hqget
      have hqe : pi = q := Option.some.inj hqget
      subst hqe
      exact (List.Nodup.mem_erase_iff hsnd).mp hq |>.1 rfl
    rw [vectorGet_vectorSet_ne _ _ _ _ hne]
    exact hqget
  · exact List.Nodup.sublist (List.Sublist.map _ (List.erase_sublist pi sent)) h.sentNodup
  · simp only [e3, e4]
    have hnum := h.num
    simp only at hnum hcount
    by_cases hidle : st.availableChannels.length + 1 = st.numChannels
    · simp only [hidle, if_true, ne_eq, not_true_eq_false, false_iff]
      omega
    · simp only [hidle, if_false]
      have hd := h.disp
      simp only at hd
      rw [hd]
      constructor <;> intro _ <;> omega

theorem Reachable.inv {n : Nat} {w : World} (h : Reachable n w) : Inv n w := by
  induction h with
  | construct => exact Inv_construct n
  | play w args _ ih => exact Inv_play n w args ih
  | channelFinished w c _ _ _ hfresh ih => exact Inv_channelFinished n w c ih hfresh
  | playDone w pi _ hpi ih => exact Inv_playDone n w pi ih hpi

theorem Reachable.no_sentinel {n : Nat} {w : World} (h : Reachable n w) :
    (-1 : Int) ∉ w.state.availableChannels := by
  intro hm
  have := (h.inv.range (-1) hm).1
  omega

theorem Play_accept (s : State) (args : List Value) (a b : Int) (rest : List Int)
    (hargs : args ≠ []) (hl : s.availableChannels = a :: b :: rest) (ha : 0 ≤ a) :
    Play s args =
      { outcome := .returned (argAt args 0)
        state :=
          { numChannels := s.numChannels
            availableChannels := b :: rest
            playInfoChannelList :=
              vectorSet s.playInfoChannelList a (some (newPlayInfo args a))
            playDoneEvent := some .mk }
        queued := some (newPlayInfo args a) } := by
  rcases Play_cases s args with ⟨h, _⟩ | ⟨_, h, _⟩ | ⟨_, a2, b2, r2, hl2, ha2, _⟩ |
    ⟨_, a2, b2, r2, hl2, _, hp⟩
  · exact absurd h hargs
  · rw [hl] at h; simp at h
  · rw [hl] at hl2; cases hl2; omega
  · rw [hl] at hl2; cases hl2; exact hp

theorem Play_reject (s : State) (args : List Value) (hargs : args ≠ [])
    (hl : s.availableChannels.length ≤ 1) :
    Play s args = { outcome := .threw noMoreChannels, state := s, queued := none } := by
  rcases Play_cases s args with ⟨h, _⟩ | ⟨_, _, hp⟩ | ⟨_, a2, b2, r2, hl2, _, _⟩ |
    ⟨_, a2, b2, r2, hl2, _, _⟩
  · exact absurd h hargs
  · exact hp
  · rw [hl2] at hl; simp at hl
  · rw [hl2] at hl; simp at hl

theorem afterClaims_eq_drop (k : Nat) (l : List Int) :
    afterClaims k l = l.drop (min k (l.length - 1)) := by
  induction k generalizing l with
  | zero => simp [afterClaims]
  | succ k ih =>
    rcases l with _ | ⟨a, _ | ⟨b, rest⟩⟩
    · simp [afterClaims, claimAudioChannel, ih]
    · simp [afterClaims, claimAudioChannel, ih]
    · rw [afterClaims, claimAudioChannel_cons, ih]
      have : min (k + 1) ((a :: b :: rest).length - 1) = min k ((b :: rest).length - 1) + 1 := by
        simp only [List.length_cons]
        omega
      rw [this]
      rfl

theorem kthClaim_early (k : Nat) (l : List Int) (h1 : 1 ≤ k) (h2 : k + 1 ≤ l.length) :
    some (kthClaim k l) = l[k - 1]? := by
  unfold kthClaim
  rw [afterClaims_eq_drop]
  have hmin : min (k - 1) (l.length - 1) = k - 1 := by omega
  rw [hmin]
  have hlen : (l.drop (k - 1)).length > 1 := by simp only [List.length_drop]; omega
  simp only [claimAudioChannel, hlen, if_true, List.headD_eq_head?_getD, List.head?_drop]
  have hk : k - 1 < l.length := by omega
  simp [List.getElem?_eq_getElem hk]

theorem kthClaim_late (k : Nat) (l : List Int) (h1 : 1 ≤ k) (h2 : l.length ≤ k) :
    kthClaim k l = -1 := by
  unfold kthClaim
  rw [afterClaims_eq_drop]
  apply congrArg Prod.fst (claimAudioChannel_short _ _)
  simp only [List.length_drop]
  omega

/-! ## The channel pool: claim and release -/

/-- C1, evaluated where it fails: after a construct that got two channels and
one accepted `play`, channel 1 is still in the free list, yet
`claimAudioChannel` returns -1 and the next `play` is turned down with
"Out of available channels". -/
theorem claimAudioChannel_refuses_last_free_channel :
    (Play (constructed 2) [.str "a.wav"]).state.availableChannels = [1] ∧
    claimAudioChannel [1] = (-1, [1]) ∧
    (Play (Play (constructed 2) [.str "a.wav"]).state [.str "b.wav"]).outcome
      = .threw noMoreChannels := by
  have h1 : (constructed 2).availableChannels = [0, 1] := by
    rw [constructed_spec]; rfl
  have hp := Play_accept (constructed 2) [.str "a.wav"] 0 1 [] (by simp) h1 (le_refl 0)
  refine ⟨?_, ?_, ?_⟩
  · rw [hp]
  · exact claimAudioChannel_short [1] (by simp)
  · rw [hp, Play_reject _ _ (by simp) (by simp)]

/-- C2: `claimAudioChannel` on a free list with more than one element returns
its front element and leaves exactly its tail; on a free list with zero or one
element it returns -1 and leaves the list unchanged. -/
theorem claimAudioChannel_fifo_keeps_last (l : List Int) :
    (1 < l.length →
      ∃ front rest, l = front :: rest ∧ claimAudioChannel l = (front, rest)) ∧
    (l.length ≤ 1 → claimAudioChannel l = (-1, l)) := by
  constructor
  · intro h
    rcases l with _ | ⟨a, _ | ⟨b, rest⟩⟩
    · simp at h
    · simp at h
    · exact ⟨a, b :: rest, rfl, claimAudioChannel_cons a b rest⟩
  · exact claimAudioChannel_short l

theorem claimAudioChannel_fifo_keeps_last_witness :
    (∃ front rest, ([4, 2, 7] : List Int) = front :: rest ∧
      claimAudioChannel [4, 2, 7] = (front, rest)) ∧
    claimAudioChannel [5] = (-1, [5]) :=
  ⟨(claimAudioChannel_fifo_keeps_last [4, 2, 7]).1 (by decide),
   (claimAudioChannel_fifo_keeps_last [5]).2 (by decide)⟩

/-- C3 as stated fails: on the free list [0, 1, 2] the claim succeeds with
channel 0, and releasing 0 right away gives [1, 2, 0], not [0, 1, 2]. -/
theorem release_claim_not_identity :
    claimAudioChannel [0, 1, 2] = (0, [1, 2]) ∧
    releaseAudioChannel (claimAudioChannel [0, 1, 2]).2 (claimAudioChannel [0, 1, 2]).1
      = [1, 2, 0] ∧
    releaseAudioChannel (claimAudioChannel [0, 1, 2]).2 (claimAudioChannel [0, 1, 2]).1
      ≠ [0, 1, 2] := by
  decide

/-- C3 amended: when `claimAudioChannel` succeeds on a free list (its result is
not negative), releasing the claimed channel right away gives the free list
rotated by one place: the claimed channel was the front and is now the last
element, the other channels keep their order, and the number of free channels
and the set of free channels are those before the claim.  On a free list
without duplicates the order is never the one before the claim. -/
theorem release_claim_rotates (l : List Int) (h : 0 ≤ (claimAudioChannel l).1) :
    l = (claimAudioChannel l).1 :: (claimAudioChannel l).2 ∧
    releaseAudioChannel (claimAudioChannel l).2 (claimAudioChannel l).1 = l.rotate 1 ∧
    (releaseAudioChannel (claimAudioChannel l).2 (claimAudioChannel l).1).length = l.length ∧
    (releaseAudioChannel (claimAudioChannel l).2 (claimAudioChannel l).1).Perm l ∧
    (l.Nodup → releaseAudioChannel (claimAudioChannel l).2 (claimAudioChannel l).1 ≠ l) := by
  rcases l with _ | ⟨a, _ | ⟨b, rest⟩⟩
  · simp [claimAudioChannel] at h
  · simp [claimAudioChannel] at h
  · rw [claimAudioChannel_cons]
    simp only [releaseAudioChannel]
    refine ⟨trivial, ?_, ?_, ?_, ?_⟩
    · simp [List.rotate_cons_succ]
    · simp
    · exact (List.perm_append_comm : ([a] ++ (b :: rest)).Perm ((b :: rest) ++ [a])).symm
    · intro hnd heq
      have hab : b = a := by
        have := congrArg List.head? heq
        simpa using this
      have hne := (List.nodup_cons.mp hnd).1
      exact hne (by simp [hab])

theorem release_claim_rotates_witness :
    ([3, 5, 8] : List Int) = (claimAudioChannel [3, 5, 8]).1 :: (claimAudioChannel [3, 5, 8]).2 ∧
    releaseAudioChannel (claimAudioChannel [3, 5, 8]).2 (claimAudioChannel [3, 5, 8]).1
      = ([3, 5, 8] : List Int).rotate 1 ∧
    (releaseAudioChannel (claimAudioChannel [3, 5, 8]).2
      (claimAudioChannel [3, 5, 8]).1).length = ([3, 5, 8] : List Int).length ∧
    (releaseAudioChannel (claimAudioChannel [3, 5, 8]).2
      (claimAudioChannel [3, 5, 8]).1).Perm [3, 5, 8] ∧
    (([3, 5, 8] : List Int).Nodup →
      releaseAudioChannel (claimAudioChannel [3, 5, 8]).2 (claimAudioChannel [3, 5, 8]).1
        ≠ [3, 5, 8]) :=
  release_claim_rotates [3, 5, 8] (by decide)

/-- C5: on the free list left by a construct that got `n ≥ 1` channels, the
`k`-th consecutive call of `claimAudioChannel` returns `k - 1` for
`1 ≤ k ≤ n - 1` and -1 for every `k ≥ n`; and of three consecutive `play`
calls (each with an argument) on a pool of three channels the first two are
accepted, on channels 0 and 1, and the third is turned down with
"Out of available channels". -/
theorem fresh_pool_capacity :
    (∀ n k : Nat, 1 ≤ n → 1 ≤ k →
      (k ≤ n - 1 → kthClaim k (constructed n).availableChannels = (k : Int) - 1) ∧
      (n ≤ k → kthClaim k (constructed n).availableChannels = -1)) ∧
    (∀ a1 a2 a3 : List Value, a1 ≠ [] → a2 ≠ [] → a3 ≠ [] →
      (Play (constructed 3) a1).outcome = .returned (argAt a1 0) ∧
      (Play (constructed 3) a1).queued = some (newPlayInfo a1 0) ∧
      (Play (Play (constructed 3) a1).state a2).outcome = .returned (argAt a2 0) ∧
      (Play (Play (constructed 3) a1).state a2).queued = some (newPlayInfo a2 1) ∧
      (Play (Play (Play (constructed 3) a1).state a2).state a3).outcome
        = .threw noMoreChannels ∧
      (Play (Play (Play (constructed 3) a1).state a2).state a3).queued = none) := by
  constructor
  · intro n k hn hk
    have hav : (constructed n).availableChannels
        = (List.range n).map (fun (x : Nat) => (x : Int)) := by
      rw [constructed_spec]
    rw [hav]
    constructor
    · intro hkn
      have h := kthClaim_early k ((List.range n).map (fun (x : Nat) => (x : Int))) hk
        (by simp; omega)
      have hlt : k - 1 < n := by omega
      rw [List.getElem?_map, List.getElem?_range hlt] at h
      simp only [Option.map_some', Option.some.injEq] at h
      rw [h]
      omega
    · intro hkn
      exact kthClaim_late k _ hk (by simpa using hkn)
  · intro a1 a2 a3 h1 h2 h3
    have hav : (constructed 3).availableChannels = [0, 1, 2] := by
      rw [constructed_spec]; rfl
    have p1 := Play_accept (constructed 3) a1 0 1 [2] h1 hav (le_refl 0)
    have p2 := Play_accept (Play (constructed 3) a1).state a2 1 2 [] h2 (by rw [p1])
      (by decide)
    have p3 := Play_reject (Play (Play (constructed 3) a1).state a2).state a3 h3
      (by rw [p2]; simp)
    rw [p3]
    rw [p2]
    rw [p1]
    simp

theorem fresh_pool_capacity_witness :
    kthClaim 1 (constructed 3).availableChannels = 0 ∧
    kthClaim 2 (constructed 3).availableChannels = 1 ∧
    kthClaim 3 (constructed 3).availableChannels = -1 ∧
    kthClaim 4 (constructed 3).availableChannels = -1 ∧
    (Play (Play (Play (constructed 3) [.str "a"]).state [.str "b"]).state [.str "c"]).outcome
      = .threw noMoreChannels :=
  ⟨((fresh_pool_capacity.1 3 1 (by decide) (by decide)).1 (by decide)),
   ((fresh_pool_capacity.1 3 2 (by decide) (by decide)).1 (by decide)),
   ((fresh_pool_capacity.1 3 3 (by decide) (by decide)).2 (by decide)),
   ((fresh_pool_capacity.1 3 4 (by decide) (by decide)).2 (by decide)),
   (fresh_pool_capacity.2 [.str "a"] [.str "b"] [.str "c"] (by simp) (by simp) (by simp)).2.2.2.2.1⟩

/-! ## `play` that fails -/

/-- C6: `play` without an argument fails with the usage error, in every state,
and `play` with an argument fails with "Out of available channels" when
`claimAudioChannel` returns -1; in both cases the globals (free list, request
table, dispatcher, channel count) are those before the call and no job is
queued.  The free list is taken to hold channel numbers, not the value -1
itself; by `Reachable.no_sentinel` this is so in every reachable state. -/
theorem failing_play_leaves_state (s : State) :
    Play s [] = { outcome := .threw usage, state := s, queued := none } ∧
    (∀ args : List Value, args ≠ [] → (-1 : Int) ∉ s.availableChannels →
      (claimAudioChannel s.availableChannels).1 = -1 →
      Play s args = { outcome := .threw noMoreChannels, state := s, queued := none }) := by
  constructor
  · simp [Play]
  · intro args hargs hno hclaim
    apply Play_reject s args hargs
    by_contra hlen
    rcases hl : s.availableChannels with _ | ⟨a, _ | ⟨b, rest⟩⟩
    · rw [hl] at hlen; simp at hlen
    · rw [hl] at hlen; simp at hlen
    · rw [hl, claimAudioChannel_cons] at hclaim
      simp only at hclaim
      apply hno
      rw [hl, hclaim]
      simp

theorem failing_play_leaves_state_witness :
    Play (constructed 1) [] =
      { outcome := .threw usage, state := constructed 1, queued := none } ∧
    Play (constructed 1) [.str "a.wav"] =
      { outcome := .threw noMoreChannels, state := constructed 1, queued := none } :=
  ⟨(failing_play_leaves_state (constructed 1)).1,
   (failing_play_leaves_state (constructed 1)).2 [.str "a.wav"] (by simp) (by decide)
     (by decide)⟩

/-! ## The pool invariant and the dispatcher -/

theorem busyCount_pos_iff (v : List (Option PlayInfo)) :
    0 < busyCount v ↔ ∃ c : Int, vectorGet v c ≠ none := by
  unfold busyCount
  rw [List.countP_pos_iff]
  constructor
  · rintro ⟨a, ha, hsome⟩
    obtain ⟨k, hk, rfl⟩ := List.getElem_of_mem ha
    refine ⟨(k : Int), ?_⟩
    cases hv : v[k] with
    | none => rw [hv] at hsome; cases hsome
    | some x => simp [vectorGet, List.getElem?_eq_getElem hk, hv]
  · rintro ⟨c, hc⟩
    cases hv : vectorGet v c with
    | none => exact absurd hv hc
    | some x =>
      have hr := vectorGet_in_range v c x hv
      have hlt : c.toNat < v.length := by omega
      refine ⟨some x, ?_, rfl⟩
      have : v[c.toNat] = some x := by
        simpa [vectorGet, hr.1, List.getElem?_eq_getElem hlt] using hv
      rw [← this]
      exact List.getElem_mem hlt

/-- C4: in every reachable state the free list has no duplicates and holds
only channels in `[0, n)`, the request table has `n` slots, a channel is in
the free list exactly when its slot in the request table is empty, and the
number of busy channels plus the length of the free list is `n`. -/
theorem pool_partition (n : Nat) (w : World) (h : Reachable n w) :
    w.state.availableChannels.Nodup ∧
    (∀ c ∈ w.state.availableChannels, 0 ≤ c ∧ c < n) ∧
    w.state.playInfoChannelList.length = n ∧
    (∀ c : Int, 0 ≤ c → c < n →
      (c ∈ w.state.availableChannels ↔ vectorGet w.state.playInfoChannelList c = none)) ∧
    busyCount w.state.playInfoChannelList + w.state.availableChannels.length = n :=
  ⟨h.inv.nodup, h.inv.range, h.inv.len, h.inv.part, h.inv.count⟩

/-- C7: in every reachable state the dispatcher is present exactly when some
channel has a registered request; it is absent right after construct; a
`play` with an argument on a free list of more than one channel is accepted,
and every accepted `play` leaves the dispatcher present; and
`PlayDoneCallback` for a dispatched request on channel `c` finds the
dispatcher present, empties the slot of `c`, appends `c` to the free list of
before, and deletes the dispatcher exactly when that release brings the free
list to `numChannels` entries (the old length plus one is `n`), which is
exactly when the request was the only one outstanding; otherwise it leaves the
dispatcher as it was. -/
theorem dispatcher_present_iff_busy (n : Nat) (w : World) (h : Reachable n w) :
    (w.state.playDoneEvent ≠ none ↔
      ∃ c : Int, vectorGet w.state.playInfoChannelList c ≠ none) ∧
    (constructed n).playDoneEvent = none ∧
    (∀ (args : List Value) (v : Value), (Play w.state args).outcome = .returned v →
      (Play w.state args).state.playDoneEvent ≠ none) ∧
    (∀ args : List Value, args ≠ [] → 1 < w.state.availableChannels.length →
      (Play w.state args).outcome = .returned (argAt args 0) ∧
      (Play w.state args).state.playDoneEvent = some .mk) ∧
    (∀ (c : Int) (pi : PlayInfo), ChannelFinished w.state c = some pi →
      w.state.playDoneEvent ≠ none ∧
      ((PlayDoneCallback w.state pi).1.playDoneEvent = none ↔
        (PlayDoneCallback w.state pi).1.availableChannels.length
          = (PlayDoneCallback w.state pi).1.numChannels) ∧
      (Effect.deletePlayDoneEvent ∈ (PlayDoneCallback w.state pi).2 ↔
        (PlayDoneCallback w.state pi).1.availableChannels.length
          = (PlayDoneCallback w.state pi).1.numChannels) ∧
      ((PlayDoneCallback w.state pi).1.playDoneEvent = none ↔
        busyCount (PlayDoneCallback w.state pi).1.playInfoChannelList = 0) ∧
      (PlayDoneCallback w.state pi).1.availableChannels
        = w.state.availableChannels ++ [c] ∧
      (PlayDoneCallback w.state pi).1.numChannels = n ∧
      vectorGet (PlayDoneCallback w.state pi).1.playInfoChannelList c = none ∧
      busyCount (PlayDoneCallback w.state pi).1.playInfoChannelList + 1
        = busyCount w.state.playInfoChannelList ∧
      (w.state.availableChannels.length + 1 = n →
        (PlayDoneCallback w.state pi).1.playDoneEvent = none ∧
        Effect.deletePlayDoneEvent ∈ (PlayDoneCallback w.state pi).2) ∧
      (w.state.availableChannels.length + 1 ≠ n →
        (PlayDoneCallback w.state pi).1.playDoneEvent = w.state.playDoneEvent ∧
        Effect.deletePlayDoneEvent ∉ (PlayDoneCallback w.state pi).2) ∧
      (w.state.availableChannels.length + 1 = n ↔
        busyCount w.state.playInfoChannelList = 1)) := by
  refine ⟨?_, ?_, ?_, ?_, ?_⟩
  · rw [h.inv.disp, busyCount_pos_iff]
  · rw [constructed_spec]
  · intro args v hv
    rcases Play_cases w.state args with ⟨_, hp⟩ | ⟨_, _, hp⟩ | ⟨_, a, b, rest, _, _, hp⟩ |
      ⟨_, a, b, rest, _, _, hp⟩
    · rw [hp] at hv; cases hv
    · rw [hp] at hv; cases hv
    · rw [hp] at hv; cases hv
    · rw [hp]; simp
  · intro args hargs hlen
    rcases hl : w.state.availableChannels with _ | ⟨a, _ | ⟨b, rest⟩⟩
    · rw [hl] at hlen; simp at hlen
    · rw [hl] at hlen; simp at hlen
    · have ha := (h.inv.range a (by rw [hl]; simp)).1
      rw [Play_accept w.state args a b rest hargs hl ha]
      exact ⟨rfl, rfl⟩
  · intro c pi hcf
    have hget : vectorGet w.state.playInfoChannelList c = some pi ∧
        w.state.playDoneEvent ≠ none := by
      unfold ChannelFinished at hcf
      split at hcf
      · split at hcf
        · cases hcf; exact ⟨by assumption, by assumption⟩
        · cases hcf
      · cases hcf
    obtain ⟨e1, e2, e3, e4⟩ := PlayDoneCallback_state w.state pi
    have hlen : (PlayDoneCallback w.state pi).1.availableChannels.length
        = w.state.availableChannels.length + 1 := by rw [e2]; simp
    have hch := h.inv.chan c pi hget.1
    subst hch
    have hr := vectorGet_in_range _ _ _ hget.1
    have hcnt := busyCount_vectorSet w.state.playInfoChannelList pi.channel none hr.1 hr.2
    rw [hget.1] at hcnt
    simp only [Option.isSome_none, Option.isSome_some, if_true, Bool.false_eq_true,
      if_false] at hcnt
    have hcount := h.inv.count
    have hnum := h.inv.num
    have htrace : (Effect.deletePlayDoneEvent ∈ (PlayDoneCallback w.state pi).2 ↔
        w.state.availableChannels.length + 1 = w.state.numChannels) := by
      unfold PlayDoneCallback releaseAudioChannel
      by_cases hidle : w.state.availableChannels.length + 1 = w.state.numChannels
      · simp [hidle]
      · by_cases hcb : pi.doCallback <;> simp [hidle, hcb]
    refine ⟨hget.2, ?_, ?_, ?_, e2, ?_, ?_, ?_, ?_, ?_, ?_⟩
    · rw [e4, hlen, e1]
      by_cases hidle : w.state.availableChannels.length + 1 = w.state.numChannels
      · simp [hidle]
      · simp [hidle, hget.2]
    · rw [hlen, e1]
      exact htrace
    · rw [e4, e3]
      by_cases hidle : w.state.availableChannels.length + 1 = w.state.numChannels
      · simp only [hidle, if_true, true_iff]
        omega
      · simp only [hidle, if_false]
        constructor
        · intro hnone; exact absurd hnone hget.2
        · intro hz; omega
    · rw [e1]; exact hnum
    · rw [e3, vectorGet_vectorSet_none]
    · rw [e3]; omega
    · intro hidle
      have hidle2 : w.state.availableChannels.length + 1 = w.state.numChannels := by omega
      refine ⟨?_, htrace.mpr hidle2⟩
      rw [e4]; simp [hidle2]
    · intro hidle
      have hidle2 : ¬ w.state.availableChannels.length + 1 = w.state.numChannels := by omega
      refine ⟨?_, fun hm => hidle2 (htrace.mp hm)⟩
      rw [e4]; simp [hidle2]
    · constructor <;> intro _ <;> omega

/-! ## `construct` -/

/-- C10, evaluated where it fails: a second successful construct in the same
process (two channels each time) returns an object with
`numberOfAudioChannels` 2 and leaves `numChannels` 2 and two empty slots in
the request table, but the free list is [0, 1, 0, 1]: four entries for two
channels.  Three `play` calls are then accepted, the third one on channel 0
while the first request is still registered there. -/
theorem New_twice_duplicates_free_list :
    (New (constructed 2) (workingDevice 2)).1
      = .returned { audioRate := 22050, audioFormat := 16, audioChannels := "stereo",
                    numberOfAudioChannels := 2 } ∧
    (New (constructed 2) (workingDevice 2)).2.availableChannels = [0, 1, 0, 1] ∧
    (New (constructed 2) (workingDevice 2)).2.numChannels = 2 ∧
    (New (constructed 2) (workingDevice 2)).2.playInfoChannelList = [none, none] ∧
    (Play (Play (Play (New (constructed 2) (workingDevice 2)).2
        [.str "a"]).state [.str "b"]).state [.str "c"]).queued
      = some { name := "c", channel := 0, doCallback := false, cb := .undefined } ∧
    vectorGet (Play (Play (New (constructed 2) (workingDevice 2)).2
        [.str "a"]).state [.str "b"]).state.playInfoChannelList 0
      = some { name := "a", channel := 0, doCallback := false, cb := .undefined } := by
  decide

/-! ## Completion delivery -/

theorem exampleWorld_reachable : Reachable 2 exampleWorld :=
  Reachable.play ⟨constructed 2, []⟩ [.str "a.wav", .func 7 "f"] Reachable.construct

theorem exampleWorld_state :
    exampleWorld.state =
      { numChannels := 2
        availableChannels := [1]
        playInfoChannelList := [some exampleRequest, none]
        playDoneEvent := some .mk } := by
  decide

theorem pool_partition_witness :
    Reachable 2 exampleWorld ∧
    exampleWorld.state.availableChannels = [1] ∧
    (exampleWorld.state.availableChannels.Nodup ∧
      (∀ c ∈ exampleWorld.state.availableChannels, 0 ≤ c ∧ c < (2 : Nat)) ∧
      exampleWorld.state.playInfoChannelList.length = 2 ∧
      (∀ c : Int, 0 ≤ c → c < (2 : Nat) →
        (c ∈ exampleWorld.state.availableChannels ↔
          vectorGet exampleWorld.state.playInfoChannelList c = none)) ∧
      busyCount exampleWorld.state.playInfoChannelList
        + exampleWorld.state.availableChannels.length = 2) :=
  ⟨exampleWorld_reachable, by decide, pool_partition 2 exampleWorld exampleWorld_reachable⟩

theorem dispatcher_present_iff_busy_witness :
    Reachable 2 exampleWorld ∧
    ChannelFinished exampleWorld.state 0 = some exampleRequest ∧
    exampleWorld.state.playDoneEvent ≠ none ∧
    ((PlayDoneCallback exampleWorld.state exampleRequest).1.playDoneEvent = none ↔
      (PlayDoneCallback exampleWorld.state exampleRequest).1.availableChannels.length
        = (PlayDoneCallback exampleWorld.state exampleRequest).1.numChannels) ∧
    (PlayDoneCallback exampleWorld.state exampleRequest).1.availableChannels
      = exampleWorld.state.availableChannels ++ [0] ∧
    ((PlayDoneCallback exampleWorld.state exampleRequest).1.playDoneEvent = none ∧
      Effect.deletePlayDoneEvent ∈ (PlayDoneCallback exampleWorld.state exampleRequest).2) ∧
    ((Play (constructed 2) [.str "a.wav"]).outcome = .returned (argAt [.str "a.wav"] 0) ∧
      (Play (constructed 2) [.str "a.wav"]).state.playDoneEvent = some .mk) :=
  ⟨exampleWorld_reachable, by decide,
   ((dispatcher_present_iff_busy 2 exampleWorld exampleWorld_reachable).2.2.2.2
      0 exampleRequest (by decide)).1,
   ((dispatcher_present_iff_busy 2 exampleWorld exampleWorld_reachable).2.2.2.2
      0 exampleRequest (by decide)).2.1,
   ((dispatcher_present_iff_busy 2 exampleWorld exampleWorld_reachable).2.2.2.2
      0 exampleRequest (by decide)).2.2.2.2.1,
   ((dispatcher_present_iff_busy 2 exampleWorld exampleWorld_reachable).2.2.2.2
      0 exampleRequest (by decide)).2.2.2.2.2.2.2.2.1 (by decide),
   (dispatcher_present_iff_busy 2 ⟨constructed 2, []⟩ Reachable.construct).2.2.2.1
      [.str "a.wav"] (by simp) (by decide)⟩

/-- C9 as stated fails: when the only outstanding request of `exampleWorld`
completes, `PlayDoneCallback` deletes the dispatcher before it invokes the
callback, so the dispatcher is already absent at the invocation. -/
theorem dispatcher_deleted_before_callback :
    ChannelFinished exampleWorld.state 0 = some exampleRequest ∧
    busyCount exampleWorld.state.playInfoChannelList = 1 ∧
    (PlayDoneCallback exampleWorld.state exampleRequest).2
      = [.releaseChannel 0, .deletePlayDoneEvent,
         .callback (.func 7 "f") [.str "a.wav", .num 0], .freeChunk, .freePlayInfo] ∧
    (PlayDoneCallback exampleWorld.state exampleRequest).1.playDoneEvent = none := by
  decide

/-- C9 amended: in every reachable state in which exactly one channel is busy,
`PlayDoneCallback` for the request registered on that channel `c` finds the
dispatcher present, releases `c`, then deletes the dispatcher, and only then
invokes the request's callback (when it is a function): the dispatcher returns
to absent after the channel is released and before the completion is
delivered. -/
theorem teardown_after_release_before_callback (n : Nat) (w : World) (h : Reachable n w)
    (c : Int) (pi : PlayInfo)
    (hreg : vectorGet w.state.playInfoChannelList c = some pi)
    (hlast : busyCount w.state.playInfoChannelList = 1) :
    w.state.playDoneEvent ≠ none ∧
    (PlayDoneCallback w.state pi).2
      = [.releaseChannel c, .deletePlayDoneEvent]
          ++ (if pi.doCallback then [.callback pi.cb [.str pi.name, .num c]] else [])
          ++ [.freeChunk, .freePlayInfo] ∧
    (PlayDoneCallback w.state pi).1.playDoneEvent = none ∧
    (PlayDoneCallback w.state pi).1.availableChannels = w.state.availableChannels ++ [c] ∧
    vectorGet (PlayDoneCallback w.state pi).1.playInfoChannelList c = none := by
  have hch := h.inv.chan c pi hreg
  subst hch
  have hev : w.state.playDoneEvent ≠ none := h.inv.disp.mpr (by omega)
  have hcount := h.inv.count
  have hnum := h.inv.num
  have hidle : w.state.availableChannels.length + 1 = w.state.numChannels := by omega
  obtain ⟨_, e2, e3, e4⟩ := PlayDoneCallback_state w.state pi
  refine ⟨hev, ?_, ?_, e2, ?_⟩
  · unfold PlayDoneCallback releaseAudioChannel
    by_cases hcb : pi.doCallback <;> simp [hidle, hcb]
  · rw [e4]; simp [hidle]
  · rw [e3, vectorGet_vectorSet_none]

theorem teardown_after_release_before_callback_witness :
    Reachable 2 exampleWorld ∧
    vectorGet exampleWorld.state.playInfoChannelList 0 = some exampleRequest ∧
    busyCount exampleWorld.state.playInfoChannelList = 1 ∧
    (exampleWorld.state.playDoneEvent ≠ none ∧
      (PlayDoneCallback exampleWorld.state exampleRequest).2
        = [.releaseChannel 0, .deletePlayDoneEvent]
            ++ (if exampleRequest.doCallback then
                  [.callback exampleRequest.cb [.str exampleRequest.name, .num 0]] else [])
            ++ [.freeChunk, .freePlayInfo] ∧
      (PlayDoneCallback exampleWorld.state exampleRequest).1.playDoneEvent = none ∧
      (PlayDoneCallback exampleWorld.state exampleRequest).1.availableChannels
        = exampleWorld.state.availableChannels ++ [0] ∧
      vectorGet (PlayDoneCallback exampleWorld.state exampleRequest).1.playInfoChannelList 0
        = none) :=
  ⟨exampleWorld_reachable, by decide, by decide,
   teardown_after_release_before_callback 2 exampleWorld exampleWorld_reachable 0
     exampleRequest (by decide) (by decide)⟩

end SDLMixer
